import Mathlib

/-!
# ECS Timeline Builder — verification of the normalization & correlation engine

Shallow embedding of `src/js/parser.js` (the ECS event parser).  JavaScript
values reachable by the parser are modelled by the inductive `Value`; a
`null`/`undefined` result of a lookup is modelled by `Option.none` (the two
are indistinguishable to every caller in the parser, which only ever uses the
default `null`).  The host date constructor `new Date(v)` is abstracted as a
parameter `dp : Value → Option Int` (milliseconds since the epoch, `none`
modelling an invalid date), and `Date.now()` as an explicit `now : Int`
argument, so that theorems quantify over every possible behaviour of the two
host clock/date functions.
-/

namespace ECS

/-- A JSON-like JavaScript value (the shapes reachable through the parser).
`vnative name` is the member a plain object literal inherits from
`Object.prototype` under `name` — a native function, or the prototype object
itself for the `__proto__` accessor — opaque to the parser, which only ever
tests it for truthiness. -/
inductive Value where
  | vnull : Value
  | vbool : Bool → Value
  | vnum : Int → Value
  | vstr : String → Value
  | varr : List Value → Value
  | vobj : List (String × Value) → Value
  | vnative : String → Value

mutual
/-- Structural boolean equality on `Value` (JS `===` on the primitive values
the parser compares; containers compared structurally). -/
def beqValue : Value → Value → Bool
  | .vnull, .vnull => true
  | .vbool a, .vbool b => a == b
  | .vnum a, .vnum b => a == b
  | .vstr a, .vstr b => a == b
  | .varr xs, .varr ys => beqValueList xs ys
  | .vobj xs, .vobj ys => beqFieldList xs ys
  | .vnative a, .vnative b => a == b
  | _, _ => false

/-- Elementwise equality of value lists. -/
def beqValueList : List Value → List Value → Bool
  | [], [] => true
  | x :: xs, y :: ys => beqValue x y && beqValueList xs ys
  | _, _ => false

/-- Elementwise equality of field lists. -/
def beqFieldList : List (String × Value) → List (String × Value) → Bool
  | [], [] => true
  | (k, v) :: xs, (k2, v2) :: ys => k == k2 && beqValue v v2 && beqFieldList xs ys
  | _, _ => false
end

mutual
/-- Soundness and completeness of `beqValue` with respect to equality. -/
def beqValue_iff : ∀ a b, beqValue a b = true ↔ a = b
  | .vnull, b => by cases b <;> simp [beqValue]
  | .vbool a, b => by cases b <;> simp [beqValue]
  | .vnum a, b => by cases b <;> simp [beqValue]
  | .vstr a, b => by cases b <;> simp [beqValue]
  | .vnative a, b => by cases b <;> simp [beqValue]
  | .varr xs, b => by
      cases b <;> simp only [beqValue, Bool.false_eq_true, false_iff, Value.varr.injEq] <;>
        try exact fun h => Value.noConfusion h
      exact beqValueList_iff xs _
  | .vobj xs, b => by
      cases b <;> simp only [beqValue, Bool.false_eq_true, false_iff, Value.vobj.injEq] <;>
        try exact fun h => Value.noConfusion h
      exact beqFieldList_iff xs _

/-- List version of `beqValue_iff`. -/
def beqValueList_iff : ∀ a b, beqValueList a b = true ↔ a = b
  | [], b => by cases b <;> simp [beqValueList]
  | x :: xs, b => by
      cases b with
      | nil => simp [beqValueList]
      | cons y ys =>
        simp only [beqValueList, Bool.and_eq_true, List.cons.injEq]
        rw [beqValue_iff x y, beqValueList_iff xs ys]

/-- Field-list version of `beqValue_iff`. -/
def beqFieldList_iff : ∀ a b, beqFieldList a b = true ↔ a = b
  | [], b => by cases b <;> simp [beqFieldList]
  | (k, v) :: xs, b => by
      cases b with
      | nil => simp [beqFieldList]
      | cons y ys =>
        obtain ⟨k2, v2⟩ := y
        simp only [beqFieldList, Bool.and_eq_true, List.cons.injEq, Prod.mk.injEq,
          beq_iff_eq]
        rw [beqValue_iff v v2, beqFieldList_iff xs ys]
end

instance : DecidableEq Value := fun a b =>
  decidable_of_iff (beqValue a b = true) (beqValue_iff a b)

instance : BEq Value := ⟨beqValue⟩

instance : LawfulBEq Value where
  eq_of_beq h := (beqValue_iff _ _).mp h
  rfl := (beqValue_iff _ _).mpr rfl

/-- JavaScript truthiness for the modelled values (`[]` and objects are
truthy; `0`, `""`, `false`, `null` are falsy). -/
def jsTruthy : Value → Bool
  | .vnull => false
  | .vbool b => b
  | .vnum n => n != 0
  | .vstr s => s != ""
  | .varr _ => true
  | .vobj _ => true
  | .vnative _ => true

/-- Truthiness of a lookup result (`none` models JS `null`/`undefined`). -/
def jsTruthyOpt : Option Value → Bool
  | none => false
  | some v => jsTruthy v

/-- Conversion of a lookup result back to the underlying JS value
(`none`, i.e. `null`, becomes the explicit `vnull`). -/
def jsVal : Option Value → Value
  | none => .vnull
  | some v => v

/-- The JS short-circuit `a || b` where `a` is a lookup result and `b` a
plain value: the value of `a` when truthy, else `b`. -/
def jsOr (a : Option Value) (b : Value) : Value :=
  match a with
  | some v => if jsTruthy v then v else b
  | none => b

/-- The JS `a || null` idiom: keeps `a` only when truthy. -/
def jsOrNull (a : Option Value) : Option Value :=
  match a with
  | some v => if jsTruthy v then some v else none
  | none => none

mutual
/-- JavaScript string coercion (`String(v)`, template-literal interpolation,
and object property-key coercion). -/
def jsToString : Value → String
  | .vnull => "null"
  | .vbool b => if b then "true" else "false"
  | .vnum n => toString n
  | .vstr s => s
  | .varr xs => jsToStringList xs
  | .vobj _ => "[object Object]"
  | .vnative name =>
    if name == "__proto__" then "[object Object]"
    else if name == "constructor" then "function Object() { [native code] }"
    else "function " ++ name ++ "() { [native code] }"

/-- Array `toString`: elements joined with commas. -/
def jsToStringList : List Value → String
  | [] => ""
  | [v] => jsToString v
  | v :: rest => jsToString v ++ "," ++ jsToStringList rest
end

/-- Lowercasing a string character by character (JS `toLowerCase` on the
ASCII hostnames the parser handles). -/
def strLower (s : String) : String :=
  .mk (s.data.map Char.toLower)

/-- The JS `v.toLowerCase()` on a string value; non-string values are left
unchanged (the parser only lowercases hostname strings). -/
def jsToLower : Value → Value
  | .vstr s => .vstr (strLower s)
  | v => v

/-- The JS `s.startsWith(p)` on a string value (`false` on non-strings). -/
def jsStartsWith (v : Value) (p : String) : Bool :=
  match v with
  | .vstr s => p.data.isPrefixOf s.data
  | _ => false

/-- Substring occurrence on character lists (the JS `includes`). -/
def charListIncludes (pat : List Char) : List Char → Bool
  | [] => pat.isEmpty
  | c :: rest => pat.isPrefixOf (c :: rest) || charListIncludes pat rest

/-- The JS `s.toUpperCase().includes(p)` used by the summary builder's
"SYSTEM" suppression check (`false` on non-strings). -/
def jsUpperContains (v : Value) (p : String) : Bool :=
  match v with
  | .vstr s => charListIncludes p.data (s.data.map Char.toUpper)
  | _ => false

/-- The JS `path.split('.')`: splitting a character list at every occurrence
of the separator (the empty string yields one empty segment, exactly as
`''.split('.')` does). -/
def splitOnChar (sep : Char) : List Char → List (List Char)
  | [] => [[]]
  | c :: rest =>
    if c = sep then [] :: splitOnChar sep rest
    else
      match splitOnChar sep rest with
      | [] => [[c]]
      | seg :: segs => (c :: seg) :: segs

/-- Dot-splitting of a field path, as `path.split('.')` in the source. -/
def splitPath (path : String) : List String :=
  (splitOnChar '.' path.data).map (fun l => String.mk l)

/-- Property access `current[key]` on a value: field lookup on objects,
absent (`undefined`) on every other shape.  (The parser never indexes arrays
or strings by key.) -/
def propAccess : Value → String → Option Value
  | .vobj fs, k => (fs.find? (fun p => p.1 == k)).map (·.2)
  | _, _ => none

/-- The per-segment walk of `getNestedValue`: at each step a `null` or
`undefined` intermediate yields the default (`none`); a final stored `null`
is returned as JS `null`, i.e. also `none`. -/
def getNestedWalk : Value → List String → Option Value
  | .vnull, _ => none
  | v, [] => some v
  | v, k :: rest =>
    match propAccess v k with
    | none => none
    | some w => getNestedWalk w rest

/-- Source `getNestedValue(obj, path)` (with its default `null` argument):
guards falsy object or empty path, splits the path on dots, then walks. -/
def getNestedValue (obj : Value) (path : String) : Option Value :=
  if !jsTruthy obj || path == "" then none
  else getNestedWalk obj (splitPath path)

/-- Source `normalizeValue(value)`: the first element if the value is an
array (`null` when the array is empty), otherwise the value unchanged.  A
stored `null` element surfaces as JS `null`, i.e. `none`. -/
def normalizeValue : Option Value → Option Value
  | some (.varr vs) =>
    match vs.head? with
    | some .vnull => none
    | some v => some v
    | none => none
  | some .vnull => none
  | some v => some v
  | none => none

/-- Source `getNestedString(obj, path)`: nested lookup then normalization. -/
def getNestedString (obj : Value) (path : String) : Option Value :=
  normalizeValue (getNestedValue obj path)

/-- Source `getFirstValue(obj, paths)` (default `null`): the first path whose
resolved value is neither `null`/`undefined` nor the empty string. -/
def getFirstValue (obj : Value) : List String → Option Value
  | [] => none
  | p :: rest =>
    match getNestedValue obj p with
    | some v => if v = .vstr "" then getFirstValue obj rest else some v
    | none => getFirstValue obj rest

/-- Source `getFirstString(obj, paths)`: first match, normalized. -/
def getFirstString (obj : Value) (paths : List String) : Option Value :=
  normalizeValue (getFirstValue obj paths)

/-- The prioritized ECS timestamp fields of `parseTimestamp`. -/
def tsFields : List String :=
  ["@timestamp", "event.created", "event.ingested", "event.start", "event.end"]

/-- Source `parseTimestamp(event)`: the first non-empty candidate, when
truthy, is handed to `new Date(...)` (the abstracted `dp`); an invalid date
(`none`) or a falsy/absent candidate yields `null`. -/
def parseTimestamp (dp : Value → Option Int) (event : Value) : Option Int :=
  match getFirstValue event tsFields with
  | some v => if jsTruthy v then dp v else none
  | none => none

/-- The host identity attached to every canonical event. -/
structure HostIdentity where
  hostname : Value
  ip : Option Value
  displayName : Value
  deriving DecidableEq

/-- Source `extractHostIdentifier(event)`: four name-like fields, then two
address-like fields, then raw source/destination addresses, then the
"Unknown" sentinel. -/
def extractHostIdentifier (event : Value) : HostIdentity :=
  let hostname := getFirstString event
    ["host.hostname", "host.name", "agent.name", "observer.hostname", "observer.name"]
  let ip := getFirstString event ["host.ip", "observer.ip"]
  if jsTruthyOpt hostname || jsTruthyOpt ip then
    { hostname := jsOr hostname (jsOr ip (.vstr "Unknown")),
      ip := jsOrNull ip,
      displayName := jsOr hostname (jsOr ip (.vstr "Unknown")) }
  else
    let sourceIp := getNestedString event "source.ip"
    if jsTruthyOpt sourceIp then
      { hostname := jsVal sourceIp, ip := sourceIp, displayName := jsVal sourceIp }
    else
      let destIp := getNestedString event "destination.ip"
      if jsTruthyOpt destIp then
        { hostname := jsVal destIp, ip := destIp, displayName := jsVal destIp }
      else
        { hostname := .vstr "Unknown", ip := none, displayName := .vstr "Unknown" }

/-- The fixed category lookup table of `extractCategory`. -/
def categoryMap : List (String × String) :=
  [("network", "network"),
   ("file", "file"),
   ("process", "process"),
   ("authentication", "authentication"),
   ("session", "authentication"),
   ("registry", "registry"),
   ("iam", "authentication"),
   ("intrusion_detection", "network"),
   ("malware", "process"),
   ("package", "file"),
   ("web", "network"),
   ("database", "network")]

/-- The members every plain object literal inherits from `Object.prototype`;
each resolves to a truthy value (a native function, or `Object.prototype`
itself for the `__proto__` accessor). -/
def objectProtoMembers : List String :=
  ["constructor", "hasOwnProperty", "isPrototypeOf", "propertyIsEnumerable",
   "toLocaleString", "toString", "valueOf", "__proto__", "__defineGetter__",
   "__defineSetter__", "__lookupGetter__", "__lookupSetter__"]

/-- Property read `obj[key]` on a string-valued object literal such as
`categoryMap`: an own property first, else the prototype chain — a key
naming an `Object.prototype` member yields that inherited native value —
else `undefined`. -/
def jsObjectGetStr (fields : List (String × String)) (key : String) : Option Value :=
  match fields.find? (fun p => p.1 == key) with
  | some p => some (.vstr p.2)
  | none => if key ∈ objectProtoMembers then some (.vnative key) else none

/-- Source `extractCategory(event)`: category falling back to type, first
element of an array value, then `categoryMap[categoryValue] || 'other'`.
JS object indexing coerces the key to a string (`jsToString`) and walks the
prototype chain on a miss, so a raw value naming an `Object.prototype`
member returns that inherited truthy native member, bypassing the
`|| 'other'` default.  A `null`/`undefined` value (key `"null"`/
`"undefined"`, conflated here) is neither mapped nor inherited, hence
`'other'`. -/
def extractCategory (event : Value) : Value :=
  let category := getFirstValue event ["event.category", "event.type"]
  let categoryValue : Option Value :=
    match category with
    | some (.varr vs) => vs.head?
    | c => c
  let key : String :=
    match categoryValue with
    | some v => jsToString v
    | none => "undefined"
  jsOr (jsObjectGetStr categoryMap key) (.vstr "other")

/-- The per-event network flow record of `extractConnectionInfo`. -/
structure ConnectionInfo where
  sourceIp : Value
  sourcePort : Option Value
  sourceHostname : Option Value
  sourceBytes : Option Value
  sourcePackets : Option Value
  destIp : Value
  destPort : Option Value
  destHostname : Option Value
  destBytes : Option Value
  destPackets : Option Value
  protocol : Option Value
  direction : Option Value
  communityId : Option Value
  networkType : Option Value
  networkBytes : Option Value
  deriving DecidableEq

/-- Source `extractConnectionInfo(event)`: both addresses required (falsy
counts as absent), loopback and self-connections rejected, otherwise the
full flow record with `network.transport` falling back to
`network.protocol`. -/
def extractConnectionInfo (event : Value) : Option ConnectionInfo :=
  let sourceIp := getNestedString event "source.ip"
  let destIp := getNestedString event "destination.ip"
  if !jsTruthyOpt sourceIp || !jsTruthyOpt destIp then none
  else
    let s := jsVal sourceIp
    let d := jsVal destIp
    if s = d || s = .vstr "127.0.0.1" || d = .vstr "127.0.0.1" ||
        jsStartsWith s "::1" || jsStartsWith d "::1" then none
    else
      some { sourceIp := s,
             sourcePort := getNestedString event "source.port",
             sourceHostname := getNestedString event "source.domain",
             sourceBytes := getNestedValue event "source.bytes",
             sourcePackets := getNestedValue event "source.packets",
             destIp := d,
             destPort := getNestedString event "destination.port",
             destHostname := getNestedString event "destination.domain",
             destBytes := getNestedValue event "destination.bytes",
             destPackets := getNestedValue event "destination.packets",
             protocol := getFirstValue event ["network.transport", "network.protocol"],
             direction := getNestedValue event "network.direction",
             communityId := getNestedValue event "network.community_id",
             networkType := getNestedValue event "network.type",
             networkBytes := getNestedValue event "network.bytes" }

/-- Source `extractSummary(event)`: the action (or `'Event'`) with the
conditional clauses appended in fixed order.  When no clause fires the raw
`action || 'Event'` value is returned unchanged (JS never coerces it). -/
def extractSummary (event : Value) : Value :=
  let action := getFirstValue event ["event.action", "event.type"]
  let actionStr : Option Value :=
    match action with
    | some (.varr vs) => vs.head?
    | c => c
  let processName := getNestedString event "process.name"
  let fileName := getNestedString event "file.name"
  let userName := getNestedString event "user.name"
  let destIp := getNestedString event "destination.ip"
  let destPort := getNestedString event "destination.port"
  let dnsQuery := getNestedString event "dns.question.name"
  let urlDomain := getNestedString event "url.domain"
  let base : Value := jsOr actionStr (.vstr "Event")
  let clauses : String :=
    (if jsTruthyOpt processName then " [" ++ jsToString (jsVal processName) ++ "]" else "")
    ++ (if jsTruthyOpt fileName then " " ++ jsToString (jsVal fileName) else "")
    ++ (if jsTruthyOpt destIp && jsTruthyOpt destPort then
          " -> " ++ jsToString (jsVal destIp) ++ ":" ++ jsToString (jsVal destPort)
        else if jsTruthyOpt destIp then " -> " ++ jsToString (jsVal destIp) else "")
    ++ (if jsTruthyOpt dnsQuery then " (" ++ jsToString (jsVal dnsQuery) ++ ")" else "")
    ++ (if jsTruthyOpt urlDomain && !jsTruthyOpt dnsQuery then
          " (" ++ jsToString (jsVal urlDomain) ++ ")" else "")
    ++ (if jsTruthyOpt userName && !jsUpperContains (jsVal userName) "SYSTEM" then
          " by " ++ jsToString (jsVal userName) else "")
  if clauses = "" then base else .vstr (jsToString base ++ clauses)

/-- Shorthand for the detail builder: a looked-up field stored as a JS value
(the default `null` stored explicitly, as the source object literals do). -/
def gv (event : Value) (path : String) : Value :=
  jsVal (getNestedValue event path)

/-- Source `extractDetails(event)`: the section-organized detail record;
`event` and `host` sections always present, the remaining sections only when
their presence fields hold a truthy value. -/
def extractDetails (event : Value) : Value :=
  .vobj (
    [("event", .vobj
       [("action", gv event "event.action"),
        ("category", gv event "event.category"),
        ("type", gv event "event.type"),
        ("outcome", gv event "event.outcome"),
        ("reason", gv event "event.reason"),
        ("code", gv event "event.code"),
        ("provider", gv event "event.provider"),
        ("dataset", gv event "event.dataset"),
        ("module", gv event "event.module"),
        ("kind", gv event "event.kind"),
        ("severity", gv event "event.severity"),
        ("riskScore", gv event "event.risk_score")]),
     ("host", .vobj
       [("hostname", gv event "host.hostname"),
        ("name", gv event "host.name"),
        ("id", gv event "host.id"),
        ("ip", gv event "host.ip"),
        ("mac", gv event "host.mac"),
        ("os", gv event "host.os.name"),
        ("osVersion", gv event "host.os.version"),
        ("osFamily", gv event "host.os.family"),
        ("osPlatform", gv event "host.os.platform"),
        ("architecture", gv event "host.architecture")])]
    ++ (if jsTruthyOpt (getNestedValue event "source.ip") ||
           jsTruthyOpt (getNestedValue event "destination.ip") then
        [("network", .vobj
          [("sourceIp", gv event "source.ip"),
           ("sourcePort", gv event "source.port"),
           ("sourceDomain", gv event "source.domain"),
           ("sourceBytes", gv event "source.bytes"),
           ("sourcePackets", gv event "source.packets"),
           ("sourceGeoCountry", gv event "source.geo.country_name"),
           ("sourceGeoCity", gv event "source.geo.city_name"),
           ("destIp", gv event "destination.ip"),
           ("destPort", gv event "destination.port"),
           ("destDomain", gv event "destination.domain"),
           ("destBytes", gv event "destination.bytes"),
           ("destPackets", gv event "destination.packets"),
           ("destGeoCountry", gv event "destination.geo.country_name"),
           ("destGeoCity", gv event "destination.geo.city_name"),
           ("protocol", gv event "network.protocol"),
           ("transport", gv event "network.transport"),
           ("type", gv event "network.type"),
           ("direction", gv event "network.direction"),
           ("communityId", gv event "network.community_id"),
           ("bytes", gv event "network.bytes"),
           ("packets", gv event "network.packets"),
           ("application", gv event "network.application")])]
       else [])
    ++ (if jsTruthyOpt (getNestedValue event "process.name") ||
           jsTruthyOpt (getNestedValue event "process.pid") then
        [("process", .vobj
          [("name", gv event "process.name"),
           ("pid", gv event "process.pid"),
           ("executable", gv event "process.executable"),
           ("commandLine", gv event "process.command_line"),
           ("args", gv event "process.args"),
           ("workingDirectory", gv event "process.working_directory"),
           ("entityId", gv event "process.entity_id"),
           ("exitCode", gv event "process.exit_code"),
           ("parentName", gv event "process.parent.name"),
           ("parentPid", gv event "process.parent.pid"),
           ("parentExecutable", gv event "process.parent.executable"),
           ("parentCommandLine", gv event "process.parent.command_line"),
           ("hashMd5", gv event "process.hash.md5"),
           ("hashSha1", gv event "process.hash.sha1"),
           ("hashSha256", gv event "process.hash.sha256")])]
       else [])
    ++ (if jsTruthyOpt (getNestedValue event "file.path") ||
           jsTruthyOpt (getNestedValue event "file.name") then
        [("file", .vobj
          [("path", gv event "file.path"),
           ("name", gv event "file.name"),
           ("directory", gv event "file.directory"),
           ("extension", gv event "file.extension"),
           ("mimeType", gv event "file.mime_type"),
           ("size", gv event "file.size"),
           ("targetPath", gv event "file.target_path"),
           ("type", gv event "file.type"),
           ("hashMd5", gv event "file.hash.md5"),
           ("hashSha1", gv event "file.hash.sha1"),
           ("hashSha256", gv event "file.hash.sha256")])]
       else [])
    ++ (if jsTruthyOpt (getNestedValue event "user.name") ||
           jsTruthyOpt (getNestedValue event "user.id") then
        [("user", .vobj
          [("name", gv event "user.name"),
           ("fullName", gv event "user.full_name"),
           ("domain", gv event "user.domain"),
           ("id", gv event "user.id"),
           ("email", gv event "user.email"),
           ("roles", gv event "user.roles"),
           ("targetName", gv event "user.target.name"),
           ("targetDomain", gv event "user.target.domain"),
           ("effectiveName", gv event "user.effective.name")])]
       else [])
    ++ (if jsTruthyOpt (getNestedValue event "dns.question.name") then
        [("dns", .vobj
          [("questionName", gv event "dns.question.name"),
           ("questionType", gv event "dns.question.type"),
           ("questionClass", gv event "dns.question.class"),
           ("responseCode", gv event "dns.response_code"),
           ("resolvedIp", gv event "dns.resolved_ip"),
           ("answers", gv event "dns.answers")])]
       else [])
    ++ (if jsTruthyOpt (getNestedValue event "url.full") ||
           jsTruthyOpt (getNestedValue event "url.domain") then
        [("url", .vobj
          [("full", gv event "url.full"),
           ("domain", gv event "url.domain"),
           ("path", gv event "url.path"),
           ("query", gv event "url.query"),
           ("scheme", gv event "url.scheme"),
           ("port", gv event "url.port")])]
       else [])
    ++ (if jsTruthyOpt (getNestedValue event "http.request.method") ||
           jsTruthyOpt (getNestedValue event "http.response.status_code") then
        [("http", .vobj
          [("method", gv event "http.request.method"),
           ("statusCode", gv event "http.response.status_code"),
           ("requestBodyContent", gv event "http.request.body.content"),
           ("responseBodyContent", gv event "http.response.body.content"),
           ("userAgent", gv event "user_agent.original")])]
       else [])
    ++ (if jsTruthyOpt (getNestedValue event "registry.path") ||
           jsTruthyOpt (getNestedValue event "registry.key") then
        [("registry", .vobj
          [("path", gv event "registry.path"),
           ("key", gv event "registry.key"),
           ("value", gv event "registry.value"),
           ("dataStrings", gv event "registry.data.strings"),
           ("dataType", gv event "registry.data.type"),
           ("hive", gv event "registry.hive")])]
       else [])
    ++ (if jsTruthyOpt (getNestedValue event "threat.indicator") ||
           jsTruthyOpt (getNestedValue event "threat.technique.name") then
        [("threat", .vobj
          [("framework", gv event "threat.framework"),
           ("tacticName", gv event "threat.tactic.name"),
           ("tacticId", gv event "threat.tactic.id"),
           ("techniqueName", gv event "threat.technique.name"),
           ("techniqueId", gv event "threat.technique.id"),
           ("indicator", gv event "threat.indicator")])]
       else [])
    ++ (if jsTruthyOpt (getNestedValue event "observer.name") ||
           jsTruthyOpt (getNestedValue event "observer.type") then
        [("observer", .vobj
          [("name", gv event "observer.name"),
           ("hostname", gv event "observer.hostname"),
           ("ip", gv event "observer.ip"),
           ("type", gv event "observer.type"),
           ("vendor", gv event "observer.vendor"),
           ("product", gv event "observer.product"),
           ("version", gv event "observer.version")])]
       else [])
    ++ (if jsTruthyOpt (getNestedValue event "rule.name") ||
           jsTruthyOpt (getNestedValue event "rule.id") then
        [("rule", .vobj
          [("name", gv event "rule.name"),
           ("id", gv event "rule.id"),
           ("category", gv event "rule.category"),
           ("description", gv event "rule.description"),
           ("ruleset", gv event "rule.ruleset"),
           ("reference", gv event "rule.reference")])]
       else []))

/-- Source `generateEventId(event, timestamp, index)`: explicit `event.id`
when truthy; otherwise `` `${ts}-${host}-${index}` `` where `ts` is the
timestamp's epoch milliseconds (or `Date.now()`, the abstracted `now`, when
the timestamp argument is null) and `host` the first host name-ish field. -/
def generateEventId (event : Value) (timestamp : Option Int) (now : Int)
    (index : Nat) : Value :=
  let eventId := getNestedValue event "event.id"
  if jsTruthyOpt eventId then jsVal eventId
  else
    let host := jsOr (getFirstString event ["host.hostname", "host.name", "host.ip"])
      (.vstr "unknown")
    let ts : Int := timestamp.getD now
    .vstr (toString ts ++ "-" ++ jsToString host ++ "-" ++ toString index)

/-- The envelope unwrap `rawEvent._source || rawEvent` at the top of
`parseEvent` (the inner payload when a source-store envelope is present). -/
def unwrapPayload (rawEvent : Value) : Value :=
  jsOr (getNestedValue rawEvent "_source") rawEvent

/-- The engine's normalized output record. -/
structure CanonicalEvent where
  id : Value
  timestamp : Int
  host : HostIdentity
  category : Value
  connection : Option ConnectionInfo
  summary : Value
  details : Value
  raw : Value
  deriving DecidableEq

/-- Source `parseEvent(rawEvent, index)`: unwrap the Elasticsearch envelope
(`_id` kept when truthy, `_source` used when truthy), reject records without
a parseable timestamp, then assemble the canonical event; the identifier is
`esId || generateEventId(event, timestamp, index)`. -/
def parseEvent (dp : Value → Option Int) (now : Int) (rawEvent : Value)
    (index : Nat) : Option CanonicalEvent :=
  let esId : Option Value := jsOrNull (getNestedValue rawEvent "_id")
  let event : Value := unwrapPayload rawEvent
  match parseTimestamp dp event with
  | none => none
  | some timestamp =>
    let eventId : Value :=
      match esId with
      | some v => v
      | none => generateEventId event (some timestamp) now index
    some { id := eventId,
           timestamp := timestamp,
           host := extractHostIdentifier event,
           category := extractCategory event,
           connection := extractConnectionInfo event,
           summary := extractSummary event,
           details := extractDetails event,
           raw := event }

/-- The indexed map-and-filter at the end of `parseEvents`:
`rawEvents.map((event, index) => parseEvent(event, index)).filter(Boolean)`,
fused into one recursion carrying the ordinal. -/
def parseEventsFrom (dp : Value → Option Int) (now : Int) :
    Nat → List Value → List CanonicalEvent
  | _, [] => []
  | index, e :: rest =>
    match parseEvent dp now e index with
    | some ev => ev :: parseEventsFrom dp now (index + 1) rest
    | none => parseEventsFrom dp now (index + 1) rest

/-- Source `parseEvents(input)` on an already-decoded batch of raw records
(the string branches of the source delegate to the host `JSON.parse` to
produce exactly such a batch; the single-object branch is the singleton
batch).  Per-record parsing preserves input order among survivors. -/
def parseEvents (dp : Value → Option Int) (now : Int)
    (rawEvents : List Value) : List CanonicalEvent :=
  parseEventsFrom dp now 0 rawEvents

/-- One logical host of the registry: canonical display hostname and the set
of observed addresses (a JS `Set`, modelled as an insertion-ordered
duplicate-free list). -/
structure HostEntry where
  hostname : Value
  ips : List Value
  displayName : Value
  deriving DecidableEq

/-- Lookup in an insertion-ordered JS `Map` modelled as an association
list. -/
def getAssoc {α : Type} (m : List (Value × α)) (k : Value) : Option α :=
  (m.find? (fun p => p.1 == k)).map (·.2)

/-- The JS `Map.has` on the association-list model. -/
def hasAssoc {α : Type} (m : List (Value × α)) (k : Value) : Bool :=
  (getAssoc m k).isSome

/-- The JS `Map.set`: replace the value at an existing key in place,
otherwise append at the end (insertion order preserved). -/
def setAssoc {α : Type} : List (Value × α) → Value → α → List (Value × α)
  | [], k, v => [(k, v)]
  | (k2, v2) :: rest, k, v =>
    if k2 == k then (k2, v) :: rest else (k2, v2) :: setAssoc rest k v

/-- In-place update of the value stored at a key (the JS
`map.get(key).field = ...` mutation); a missing key leaves the map
unchanged. -/
def updateAssoc {α : Type} : List (Value × α) → Value → (α → α) → List (Value × α)
  | [], _, _ => []
  | (k2, v2) :: rest, k, f =>
    if k2 == k then (k2, f v2) :: rest else (k2, v2) :: updateAssoc rest k f

/-- The JS `Set.add`: append unless already present. -/
def setAdd (s : List Value) (v : Value) : List Value :=
  if s.contains v then s else s ++ [v]

/-- The registry being built: hosts keyed by lowercased hostname, plus the
address → host-key reverse index. -/
structure HostRegistry where
  hosts : List (Value × HostEntry)
  ipToHost : List (Value × Value)
  deriving DecidableEq

/-- The first-pass body of `buildHostRegistry` for one event: upsert the
event's own host identity (when not the `'Unknown'` sentinel) and union in
its address when truthy; then upsert entries for a connection's named
source/destination domains, unioning in the flow's addresses. -/
def registryAddEvent (hosts : List (Value × HostEntry))
    (event : CanonicalEvent) : List (Value × HostEntry) :=
  let hosts1 :=
    if event.host.hostname ≠ .vstr "Unknown" then
      let key := jsToLower event.host.hostname
      let h1 :=
        if !hasAssoc hosts key then
          setAssoc hosts key
            { hostname := event.host.hostname, ips := [],
              displayName := event.host.displayName }
        else hosts
      if jsTruthyOpt event.host.ip then
        updateAssoc h1 key (fun e => { e with ips := setAdd e.ips (jsVal event.host.ip) })
      else h1
    else hosts
  match event.connection with
  | none => hosts1
  | some conn =>
    let hosts2 :=
      if jsTruthyOpt conn.sourceHostname then
        let sourceKey := jsToLower (jsVal conn.sourceHostname)
        let h :=
          if !hasAssoc hosts1 sourceKey then
            setAssoc hosts1 sourceKey
              { hostname := jsVal conn.sourceHostname, ips := [],
                displayName := jsVal conn.sourceHostname }
          else hosts1
        updateAssoc h sourceKey (fun e => { e with ips := setAdd e.ips conn.sourceIp })
      else hosts1
    if jsTruthyOpt conn.destHostname then
      let destKey := jsToLower (jsVal conn.destHostname)
      let h :=
        if !hasAssoc hosts2 destKey then
          setAssoc hosts2 destKey
            { hostname := jsVal conn.destHostname, ips := [],
              displayName := jsVal conn.destHostname }
        else hosts2
      updateAssoc h destKey (fun e => { e with ips := setAdd e.ips conn.destIp })
    else hosts2

/-- Source `buildHostRegistry(events)`: the first pass over all events, then
the address → host-key reverse index built from every entry's address set in
registry order (later writes to the same address win, as in `Map.set`). -/
def buildHostRegistry (events : List CanonicalEvent) : HostRegistry :=
  let hosts := events.foldl registryAddEvent []
  let ipToHost :=
    hosts.foldl (fun m p => p.2.ips.foldl (fun m2 ip => setAssoc m2 ip p.1) m) []
  { hosts := hosts, ipToHost := ipToHost }

/-- Source `resolveIp(ip)` of the registry object: reverse-index lookup,
guarded by JS truthiness of the found key; unknown addresses are returned
unchanged. -/
def resolveIp (registry : HostRegistry) (ip : Value) : Value :=
  let hostKey := getAssoc registry.ipToHost ip
  if jsTruthyOpt hostKey then
    match getAssoc registry.hosts (jsVal hostKey) with
    | some entry => entry.hostname
    | none => ip
  else ip

/-- Source `getHostList()` of the registry object. -/
def getHostList (registry : HostRegistry) : List HostEntry :=
  registry.hosts.map (·.2)

/-- A resolved host-to-host directed connection. -/
structure ConnectionEdge where
  eventId : Value
  timestamp : Int
  sourceHost : Value
  sourceIp : Value
  sourcePort : Option Value
  destHost : Value
  destIp : Value
  destPort : Option Value
  protocol : Option Value
  direction : Option Value
  communityId : Option Value
  deriving DecidableEq

/-- The per-event body of `identifyConnections`: no edge without a
ConnectionInfo; resolve both addresses; skip when the resolved hostnames
agree after lowercasing; otherwise the edge pushed by the source. -/
def connectionEdgeOf (hostRegistry : HostRegistry)
    (event : CanonicalEvent) : Option ConnectionEdge :=
  match event.connection with
  | none => none
  | some conn =>
    let sourceHost := resolveIp hostRegistry conn.sourceIp
    let destHost := resolveIp hostRegistry conn.destIp
    if jsToLower sourceHost = jsToLower destHost then none
    else
      some { eventId := event.id,
             timestamp := event.timestamp,
             sourceHost := sourceHost,
             sourceIp := conn.sourceIp,
             sourcePort := conn.sourcePort,
             destHost := destHost,
             destIp := conn.destIp,
             destPort := conn.destPort,
             protocol := conn.protocol,
             direction := conn.direction,
             communityId := conn.communityId }

/-- Source `identifyConnections(events, hostRegistry)`: the per-event edges
accumulated in input order (`forEach` + `push` is exactly `filterMap`). -/
def identifyConnections (events : List CanonicalEvent)
    (hostRegistry : HostRegistry) : List ConnectionEdge :=
  events.filterMap (connectionEdgeOf hostRegistry)

/-!
## Auxiliary definitions for the verification

Concrete instances of the abstracted host functions, reference devices for
reasoning about the synthesized identifier scheme, and the concrete records
used to instantiate the theorems.
-/

/-- A concrete date parser: the exact behaviour of `new Date(v)` on finite
numeric arguments (epoch milliseconds); every other shape treated as an
invalid date. -/
def dateFromMillis : Value → Option Int
  | .vnum n => some n
  | _ => none

/-- The fixed closed category set of the specification. -/
def categorySet : List String :=
  ["network", "file", "process", "authentication", "registry", "other"]

/-- A raw record carrying no explicit identifier: envelope `_id` falsy and
payload `event.id` falsy; every such record gets a synthesized id. -/
def noExplicitId (rawEvent : Value) : Prop :=
  jsTruthyOpt (getNestedValue rawEvent "_id") = false ∧
  jsTruthyOpt (getNestedValue (unwrapPayload rawEvent) "event.id") = false

instance (rawEvent : Value) : Decidable (noExplicitId rawEvent) :=
  inferInstanceAs (Decidable (_ ∧ _))

/-- The trailing segment of a character list after its last dash (the
ordinal part of a synthesized identifier). -/
def lastDashSeg (l : List Char) : List Char :=
  (l.reverse.takeWhile (fun c => !(c == '-'))).reverse

/-- The ordinal segment of an identifier value (empty on non-strings). -/
def idOrdinal : Value → List Char
  | .vstr s => lastDashSeg s.data
  | _ => []

/-- Reference big-endian decimal digit list of a natural number (the digit
characters produced by `Nat.repr`). -/
def natChars (n : Nat) : List Char :=
  if n / 10 = 0 then [Nat.digitChar (n % 10)]
  else natChars (n / 10) ++ [Nat.digitChar (n % 10)]
termination_by n
decreasing_by omega

/-- Decimal value of a digit-character list, the left inverse of
`natChars`. -/
def natVal (l : List Char) : Nat :=
  l.foldl (fun a c => 10 * a + (c.toNat - 48)) 0

/-- A record whose only time field is `event.end`, with a numeric value. -/
def recEndOnly : Value := .vobj [("event", .vobj [("end", .vnum 7)])]

/-- A record whose primary timestamp is unparseable while a later candidate
would have parsed. -/
def recBogusTs : Value := .vobj
  [("@timestamp", .vstr "bogus"), ("event", .vobj [("created", .vnum 3)])]

/-- An enveloped record carrying both an outer `_id` and a payload
`event.id`. -/
def recBothIds : Value := .vobj
  [("_id", .vstr "outer"),
   ("_source", .vobj
     [("event", .vobj [("id", .vstr "inner")]), ("@timestamp", .vnum 9)])]

/-- A record whose first non-empty timestamp candidate is the epoch 0. -/
def recEpochZero : Value := .vobj [("@timestamp", .vnum 0)]

/-- A record with a mapped category and a valid timestamp. -/
def recNetworkCat : Value := .vobj
  [("@timestamp", .vnum 1),
   ("event", .vobj [("category", .varr [.vstr "network"])])]

/-- A record whose raw category names an inherited `Object.prototype`
member. -/
def recProtoCat : Value := .vobj
  [("@timestamp", .vnum 1),
   ("event", .vobj [("category", .vstr "constructor")])]

/-- The specification's qualifying tcp flow example:
`192.168.1.100:54321 → 10.0.0.50:443` with transport `tcp`. -/
def recTcpFlow : Value := .vobj
  [("source", .vobj [("ip", .vstr "192.168.1.100"), ("port", .vnum 54321)]),
   ("destination", .vobj [("ip", .vstr "10.0.0.50"), ("port", .vnum 443)]),
   ("network", .vobj [("transport", .vstr "tcp")])]

/-- A record whose `host.ip` is a present empty array while `observer.ip` is
populated. -/
def recEmptyHostIp : Value := .vobj
  [("host", .vobj [("ip", .varr [])]),
   ("observer", .vobj [("ip", .vstr "10.0.0.9")])]

/-- The flow of the cross-host scenario: `192.168.1.100 → 192.168.1.200`. -/
def connAB : ConnectionInfo :=
  { sourceIp := .vstr "192.168.1.100", sourcePort := none, sourceHostname := none,
    sourceBytes := none, sourcePackets := none,
    destIp := .vstr "192.168.1.200", destPort := none, destHostname := none,
    destBytes := none, destPackets := none,
    protocol := none, direction := none, communityId := none,
    networkType := none, networkBytes := none }

/-- Cross-host scenario, event A: host `client`/`192.168.1.100` with the
flow to `192.168.1.200`. -/
def eventA : CanonicalEvent :=
  { id := .vstr "A", timestamp := 100,
    host := { hostname := .vstr "client", ip := some (.vstr "192.168.1.100"),
              displayName := .vstr "client" },
    category := .vstr "network", connection := some connAB,
    summary := .vstr "flow", details := .vobj [], raw := .vobj [] }

/-- Cross-host scenario, event B: host `server`/`192.168.1.200`, no
connection. -/
def eventB : CanonicalEvent :=
  { id := .vstr "B", timestamp := 200,
    host := { hostname := .vstr "server", ip := some (.vstr "192.168.1.200"),
              displayName := .vstr "server" },
    category := .vstr "other", connection := none,
    summary := .vstr "boot", details := .vobj [], raw := .vobj [] }

/-- A batch of two records with no explicit identifiers. -/
def batchNoIds : List Value :=
  [.vobj [("@timestamp", .vnum 1), ("host", .vobj [("hostname", .vstr "h1")])],
   .vobj [("@timestamp", .vnum 2), ("host", .vobj [("hostname", .vstr "h2")])]]

/-- A batch of two records carrying the same envelope `_id`. -/
def batchDupIds : List Value :=
  [.vobj [("_id", .vstr "a"), ("@timestamp", .vnum 1)],
   .vobj [("_id", .vstr "a"), ("@timestamp", .vnum 2)]]

/-!
## Shared lemmas
-/

/-- Dissection of a successful `parseEvent`: every field of the output event
expressed over the unwrapped payload. -/
theorem parseEvent_fields (dp : Value → Option Int) (now : Int) (rawEvent : Value)
    (index : Nat) (ev : CanonicalEvent)
    (h : parseEvent dp now rawEvent index = some ev) :
    parseTimestamp dp (unwrapPayload rawEvent) = some ev.timestamp ∧
    ev.id = (match jsOrNull (getNestedValue rawEvent "_id") with
             | some v => v
             | none => generateEventId (unwrapPayload rawEvent) (some ev.timestamp) now index) ∧
    ev.host = extractHostIdentifier (unwrapPayload rawEvent) ∧
    ev.category = extractCategory (unwrapPayload rawEvent) ∧
    ev.connection = extractConnectionInfo (unwrapPayload rawEvent) ∧
    ev.summary = extractSummary (unwrapPayload rawEvent) ∧
    ev.details = extractDetails (unwrapPayload rawEvent) ∧
    ev.raw = unwrapPayload rawEvent := by
  simp only [parseEvent] at h
  rcases hts : parseTimestamp dp (unwrapPayload rawEvent) with _ | t
  · rw [hts] at h
    exact absurd h (by simp)
  · rw [hts] at h
    simp only [Option.some.injEq] at h
    subst h
    simp [hts]

/-!
## Claim theorems
-/

/-- C1 (code bug): the category lookup `categoryMap[categoryValue]` walks
the prototype chain, so a raw category naming an inherited
`Object.prototype` member — here `'constructor'` — escapes both the fixed
table and the `'other'` default: the assigned category is the inherited
truthy native member, outside the closed set and different from `'other'`;
an ordinary mapped value still lands in the set. -/
theorem claim1_prototype_escape :
    ((parseEvent dateFromMillis 0 recProtoCat 0).map (fun e => e.category))
      = some (.vnative "constructor") ∧
    (Value.vnative "constructor") ∉ categorySet.map Value.vstr ∧
    (Value.vnative "constructor") ≠ .vstr "other" ∧
    ((parseEvent dateFromMillis 0 recNetworkCat 0).map (fun e => e.category))
      = some (.vstr "network") := by
  decide

/-- C10: a record whose first non-empty timestamp candidate is the number 0
(the epoch — falsy but parseable) is dropped: `parseTimestamp` yields null
and `parseEvent` rejects the record, for every behaviour of the date
parser. -/
theorem claim10_epoch_zero_dropped (dp : Value → Option Int) (now : Int)
    (rawEvent : Value) (index : Nat)
    (h : getFirstValue (unwrapPayload rawEvent) tsFields = some (.vnum 0)) :
    parseTimestamp dp (unwrapPayload rawEvent) = none ∧
    parseEvent dp now rawEvent index = none := by
  have hts : parseTimestamp dp (unwrapPayload rawEvent) = none := by
    simp [parseTimestamp, h, jsTruthy]
  exact ⟨hts, by simp [parseEvent, hts]⟩

/-- Witness for C10: the epoch-zero record parses to nothing even though the
concrete date parser does parse the number 0. -/
theorem claim10_witness :
    getFirstValue (unwrapPayload recEpochZero) tsFields = some (.vnum 0) ∧
    dateFromMillis (.vnum 0) = some 0 ∧
    parseEvent dateFromMillis 0 recEpochZero 0 = none := by
  refine ⟨by decide, rfl, ?_⟩
  exact (claim10_epoch_zero_dropped dateFromMillis 0 recEpochZero 0 (by decide)).2

/-- C9: a present empty array at an earlier path is not skipped — it is the
value `getFirstValue` returns, and `getFirstString` then normalizes it to
null, shadowing every populated later path. -/
theorem claim9_empty_array_shadows (obj : Value) (ps1 : List String) (p : String)
    (ps2 : List String)
    (h1 : ∀ q ∈ ps1, getNestedValue obj q = none ∨ getNestedValue obj q = some (.vstr ""))
    (h2 : getNestedValue obj p = some (.varr [])) :
    getFirstValue obj (ps1 ++ p :: ps2) = some (.varr []) ∧
    getFirstString obj (ps1 ++ p :: ps2) = none := by
  have key : getFirstValue obj (ps1 ++ p :: ps2) = some (.varr []) := by
    induction ps1 with
    | nil =>
      simp only [List.nil_append, getFirstValue, h2]
      rw [if_neg (by decide)]
    | cons q qs ih =>
      have hqs : ∀ r ∈ qs, getNestedValue obj r = none ∨ getNestedValue obj r = some (.vstr "") :=
        fun r hr => h1 r (by simp [hr])
      rcases h1 q (by simp) with hq | hq <;>
        simp [getFirstValue, hq, ih hqs]
  exact ⟨key, by simp [getFirstString, key, normalizeValue]⟩

/-- Witness for C9: `host.ip: []` with `observer.ip` populated yields the
empty array from `getFirstValue` and a null identity address from
`getFirstString`. -/
theorem claim9_witness :
    jsTruthyOpt (getNestedValue recEmptyHostIp "observer.ip") = true ∧
    getFirstValue recEmptyHostIp ["host.ip", "observer.ip"] = some (.varr []) ∧
    getFirstString recEmptyHostIp ["host.ip", "observer.ip"] = none := by
  have h := claim9_empty_array_shadows recEmptyHostIp [] "host.ip" ["observer.ip"]
    (by simp) (by decide)
  exact ⟨by decide, h.1, h.2⟩

/-- C3 counterexample: a record whose only time field is `event.end` has no
candidate among the claim's four fields (`@timestamp`, `event.created`,
`event.ingested`, `event.start`), yet it is parsed and retained in the
output. -/
theorem claim3_counterexample :
    getFirstValue recEndOnly ["@timestamp", "event.created", "event.ingested", "event.start"]
      = none ∧
    parseTimestamp dateFromMillis recEndOnly = some 7 ∧
    (parseEvents dateFromMillis 0 [recEndOnly]).length = 1 := by
  decide

/-- C3 (amended): the candidate fields are exactly the primary `@timestamp`
followed by the four fallbacks `event.created`, `event.ingested`,
`event.start`, `event.end`, in that order; only the first non-empty
candidate is handed to the date parser — if it fails to parse, or no
candidate is present, the record is excluded, and a surviving event's
timestamp is the parse of that first candidate (never null). -/
theorem claim3_first_candidate_only (dp : Value → Option Int) (now : Int)
    (rawEvent : Value) (index : Nat) :
    tsFields = ["@timestamp", "event.created", "event.ingested", "event.start", "event.end"] ∧
    (∀ v, getFirstValue (unwrapPayload rawEvent) tsFields = some v → jsTruthy v = true →
      dp v = none → parseEvent dp now rawEvent index = none) ∧
    (getFirstValue (unwrapPayload rawEvent) tsFields = none →
      parseEvent dp now rawEvent index = none) ∧
    (∀ ev, parseEvent dp now rawEvent index = some ev →
      ∃ v, getFirstValue (unwrapPayload rawEvent) tsFields = some v ∧ jsTruthy v = true ∧
        dp v = some ev.timestamp) := by
  refine ⟨rfl, ?_, ?_, ?_⟩
  · intro v hv htr hdp
    have hts : parseTimestamp dp (unwrapPayload rawEvent) = none := by
      simp [parseTimestamp, hv, htr, hdp]
    simp [parseEvent, hts]
  · intro hv
    have hts : parseTimestamp dp (unwrapPayload rawEvent) = none := by
      simp [parseTimestamp, hv]
    simp [parseEvent, hts]
  · intro ev hev
    obtain ⟨hts, -⟩ := parseEvent_fields dp now rawEvent index ev hev
    rw [parseTimestamp] at hts
    rcases hv : getFirstValue (unwrapPayload rawEvent) tsFields with _ | v
    · rw [hv] at hts
      exact absurd hts (by simp)
    · rw [hv] at hts
      by_cases htr : jsTruthy v = true
      · exact ⟨v, rfl, htr, by simpa [htr] using hts⟩
      · simp [htr] at hts

/-- Witness for C3: an unparseable primary timestamp drops the record even
though the later `event.created` candidate would have parsed. -/
theorem claim3_witness :
    parseEvent dateFromMillis 0 recBogusTs 0 = none :=
  (claim3_first_candidate_only dateFromMillis 0 recBogusTs 0).2.1 (.vstr "bogus")
    (by decide) (by decide) rfl

/-- C2 counterexample: a record whose payload carries the explicit
identifier `inner` while the envelope carries `outer` gets id `outer` — the
envelope identifier wins, contradicting the claimed payload-first
priority. -/
theorem claim2_counterexample :
    getNestedValue (unwrapPayload recBothIds) "event.id" = some (.vstr "inner") ∧
    (parseEvent dateFromMillis 0 recBothIds 0).map (fun e => e.id) = some (.vstr "outer") ∧
    Value.vstr "outer" ≠ Value.vstr "inner" := by
  decide

/-- C2 (amended): identifier priority is the envelope `_id` first, the
payload `event.id` only when the envelope identifier is absent (falsy), and
the synthesized `timestamp-host-ordinal` string only when both are
absent. -/
theorem claim2_id_priority (dp : Value → Option Int) (now : Int) (rawEvent : Value)
    (index : Nat) (ev : CanonicalEvent)
    (h : parseEvent dp now rawEvent index = some ev) :
    (jsTruthyOpt (getNestedValue rawEvent "_id") = true →
      ev.id = jsVal (getNestedValue rawEvent "_id")) ∧
    (jsTruthyOpt (getNestedValue rawEvent "_id") = false →
      jsTruthyOpt (getNestedValue (unwrapPayload rawEvent) "event.id") = true →
      ev.id = jsVal (getNestedValue (unwrapPayload rawEvent) "event.id")) ∧
    (jsTruthyOpt (getNestedValue rawEvent "_id") = false →
      jsTruthyOpt (getNestedValue (unwrapPayload rawEvent) "event.id") = false →
      ev.id = .vstr (toString ev.timestamp ++ "-" ++
        jsToString (jsOr (getFirstString (unwrapPayload rawEvent)
          ["host.hostname", "host.name", "host.ip"]) (.vstr "unknown")) ++ "-" ++
        toString index)) := by
  obtain ⟨-, hid, -⟩ := parseEvent_fields dp now rawEvent index ev h
  refine ⟨?_, ?_, ?_⟩
  · intro h1
    rcases hx : getNestedValue rawEvent "_id" with _ | v
    · rw [hx] at h1
      exact absurd h1 (by simp [jsTruthyOpt])
    · rw [hx] at h1 hid
      simp only [jsTruthyOpt] at h1
      simpa [jsOrNull, h1, jsVal] using hid
  · intro h1 h2
    have hnull : jsOrNull (getNestedValue rawEvent "_id") = none := by
      rcases hx : getNestedValue rawEvent "_id" with _ | v
      · simp [hx, jsOrNull]
      · rw [hx] at h1
        simp only [jsTruthyOpt] at h1
        simp [hx, jsOrNull, h1]
    rw [hnull] at hid
    rcases hy : getNestedValue (unwrapPayload rawEvent) "event.id" with _ | w
    · rw [hy] at h2
      exact absurd h2 (by simp [jsTruthyOpt])
    · rw [hy] at h2
      simp only [jsTruthyOpt] at h2
      rw [hid]
      simp [generateEventId, jsTruthyOpt, hy, h2, jsVal]
  · intro h1 h2
    have hnull : jsOrNull (getNestedValue rawEvent "_id") = none := by
      rcases hx : getNestedValue rawEvent "_id" with _ | v
      · simp [hx, jsOrNull]
      · rw [hx] at h1
        simp only [jsTruthyOpt] at h1
        simp [hx, jsOrNull, h1]
    rw [hnull] at hid
    rw [hid]
    simp [generateEventId, h2]

/-- Witness for C2 at the double-identifier record: the envelope id is
truthy and the output id equals it. -/
theorem claim2_witness :
    (parseEvent dateFromMillis 0 recBothIds 0).map (fun e => e.id) = some (.vstr "outer") := by
  obtain ⟨ev, h⟩ : ∃ ev, parseEvent dateFromMillis 0 recBothIds 0 = some ev :=
    Option.isSome_iff_exists.mp (by decide)
  rw [h, Option.map_some']
  rw [(claim2_id_priority dateFromMillis 0 recBothIds 0 ev h).1 (by decide)]
  decide

/-- C4: connection extraction yields null exactly when a source or
destination address is absent (falsy), the two addresses are equal, either
is the IPv4 loopback, or either begins with the IPv6 loopback prefix;
otherwise the ConnectionInfo carries both addresses and ports, with protocol
`network.transport` falling back to `network.protocol`. -/
theorem claim4_connection_rejection (event : Value) :
    (extractConnectionInfo event = none ↔
      (jsTruthyOpt (getNestedString event "source.ip") = false ∨
       jsTruthyOpt (getNestedString event "destination.ip") = false ∨
       jsVal (getNestedString event "source.ip") = jsVal (getNestedString event "destination.ip") ∨
       jsVal (getNestedString event "source.ip") = .vstr "127.0.0.1" ∨
       jsVal (getNestedString event "destination.ip") = .vstr "127.0.0.1" ∨
       jsStartsWith (jsVal (getNestedString event "source.ip")) "::1" = true ∨
       jsStartsWith (jsVal (getNestedString event "destination.ip")) "::1" = true)) ∧
    (∀ c, extractConnectionInfo event = some c →
      c.sourceIp = jsVal (getNestedString event "source.ip") ∧
      c.destIp = jsVal (getNestedString event "destination.ip") ∧
      c.sourcePort = getNestedString event "source.port" ∧
      c.destPort = getNestedString event "destination.port" ∧
      c.protocol = getFirstValue event ["network.transport", "network.protocol"]) := by
  constructor
  · simp only [extractConnectionInfo]
    split
    · next hc1 =>
      simp only [Bool.or_eq_true, Bool.not_eq_true'] at hc1
      refine ⟨fun _ => ?_, fun _ => rfl⟩
      rcases hc1 with h | h
      · exact Or.inl h
      · exact Or.inr (Or.inl h)
    · next hc1 =>
      simp only [Bool.or_eq_true, Bool.not_eq_true'] at hc1
      split
      · next hc2 =>
        simp only [Bool.or_eq_true, decide_eq_true_eq] at hc2
        refine ⟨fun _ => ?_, fun _ => rfl⟩
        tauto
      · next hc2 =>
        simp only [Bool.or_eq_true, decide_eq_true_eq] at hc2
        constructor
        · intro hcontr
          exact absurd hcontr (by simp)
        · intro hrhs
          exfalso
          tauto
  · intro c hc
    simp only [extractConnectionInfo] at hc
    split at hc
    · exact absurd hc (by simp)
    · split at hc
      · exact absurd hc (by simp)
      · obtain rfl := Option.some.inj hc
        exact ⟨rfl, rfl, rfl, rfl, rfl⟩

/-- Witness for C4 at the specification's tcp flow: protocol comes from
`network.transport` and the destination port is 443. -/
theorem claim4_witness :
    (extractConnectionInfo recTcpFlow).map (fun c => (c.protocol, c.destPort))
      = some (some (.vstr "tcp"), some (.vnum 443)) := by
  obtain ⟨c, hc⟩ : ∃ c, extractConnectionInfo recTcpFlow = some c :=
    Option.isSome_iff_exists.mp (by decide)
  obtain ⟨-, -, -, hdp, hpr⟩ := (claim4_connection_rejection recTcpFlow).2 c hc
  rw [hc, Option.map_some', hdp, hpr]
  decide

/-- The wall clock never influences a parsed event: once a record has a
valid timestamp, the `Date.now()` fallback of the identifier generator is
dead code. -/
theorem parseEvent_now_irrel (dp : Value → Option Int) (n1 n2 : Int)
    (r : Value) (i : Nat) :
    parseEvent dp n1 r i = parseEvent dp n2 r i := by
  simp only [parseEvent]
  rcases hts : parseTimestamp dp (unwrapPayload r) with _ | t
  · rfl
  · simp [generateEventId]

/-- The indexed pipeline is wall-clock independent. -/
theorem parseEventsFrom_now_irrel (dp : Value → Option Int) (n1 n2 : Int) :
    ∀ (l : List Value) (i : Nat), parseEventsFrom dp n1 i l = parseEventsFrom dp n2 i l
  | [], _ => rfl
  | r :: rest, i => by
    simp only [parseEventsFrom]
    rw [parseEvent_now_irrel dp n1 n2 r i]
    rcases parseEvent dp n2 r i with _ | ev <;>
      simp [parseEventsFrom_now_irrel dp n1 n2 rest (i + 1)]

/-- C7: ingestion is deterministic — for every batch, outputs of two
invocations (at arbitrary, possibly different wall-clock instants) have
equal length and pairwise identical ids: the synthesized identifier depends
only on record content, parsed timestamp and ordinal, never on the clock or
prior calls. -/
theorem claim7_deterministic (dp : Value → Option Int) (now1 now2 : Int)
    (input : List Value) :
    (parseEvents dp now1 input).length = (parseEvents dp now2 input).length ∧
    (parseEvents dp now1 input).map (fun e => e.id) =
      (parseEvents dp now2 input).map (fun e => e.id) := by
  have h : parseEvents dp now1 input = parseEvents dp now2 input :=
    parseEventsFrom_now_irrel dp now1 now2 input 0
  rw [h]
  exact ⟨rfl, rfl⟩

/-- C5: an edge is emitted for an event iff the event carries a
ConnectionInfo whose registry-resolved endpoint hostnames differ
case-insensitively, and consequently no emitted edge has source and
destination hosts equal under lowercasing. -/
theorem claim5_no_self_edges (events : List CanonicalEvent) (reg : HostRegistry) :
    (∀ ev : CanonicalEvent,
      (connectionEdgeOf reg ev).isSome = true ↔
        ∃ c, ev.connection = some c ∧
          jsToLower (resolveIp reg c.sourceIp) ≠ jsToLower (resolveIp reg c.destIp)) ∧
    (∀ e ∈ identifyConnections events reg,
      jsToLower e.sourceHost ≠ jsToLower e.destHost) := by
  constructor
  · intro ev
    rcases hc : ev.connection with _ | c
    · simp [connectionEdgeOf, hc]
    · simp only [connectionEdgeOf, hc]
      by_cases hl : jsToLower (resolveIp reg c.sourceIp) = jsToLower (resolveIp reg c.destIp)
      · simp [hl]
      · simp [hl]
  · intro e he
    obtain ⟨ev, -, hsome⟩ := List.mem_filterMap.mp he
    rcases hc : ev.connection with _ | c
    · simp only [connectionEdgeOf, hc] at hsome
      exact absurd hsome (by simp)
    · simp only [connectionEdgeOf, hc] at hsome
      by_cases hl : jsToLower (resolveIp reg c.sourceIp) = jsToLower (resolveIp reg c.destIp)
      · rw [if_pos hl] at hsome
        exact absurd hsome (by simp)
      · rw [if_neg hl] at hsome
        obtain rfl := Option.some.inj hsome
        simpa using hl

/-- Witness for C5: in the two-host scenario the registry built from both
events admits an edge for event A. -/
theorem claim5_witness :
    (connectionEdgeOf (buildHostRegistry [eventA, eventB]) eventA).isSome = true := by
  refine ((claim5_no_self_edges [eventA, eventB]
    (buildHostRegistry [eventA, eventB])).1 eventA).mpr ?_
  exact ⟨connAB, rfl, by decide⟩

/-- C6: the cross-host scenario end to end — two events with host
identities `client`/`192.168.1.100` and `server`/`192.168.1.200`, the first
carrying the flow `192.168.1.100 → 192.168.1.200`; registry construction
plus connection identification yield exactly one edge, from `client` to
`server`. -/
theorem claim6_cross_host_end_to_end :
    (identifyConnections [eventA, eventB] (buildHostRegistry [eventA, eventB])).map
      (fun e => (e.sourceHost, e.destHost)) = [(.vstr "client", .vstr "server")] ∧
    (identifyConnections [eventA, eventB] (buildHostRegistry [eventA, eventB])).length = 1 := by
  decide

/-- No decimal digit character is a dash. -/
theorem digitChar_ne_dash (m : Nat) (h : m < 10) : Nat.digitChar m ≠ '-' := by
  interval_cases m <;> decide

/-- The core numeral printer with sufficient fuel produces the reference
digit list, prepended to the accumulator. -/
theorem toDigitsCore_eq_natChars :
    ∀ (f n : Nat) (ds : List Char), n < f →
      Nat.toDigitsCore 10 f n ds = natChars n ++ ds := by
  intro f
  induction f with
  | zero => intro n ds h; omega
  | succ f ih =>
    intro n ds h
    simp only [Nat.toDigitsCore]
    by_cases h0 : n / 10 = 0
    · rw [if_pos h0, natChars.eq_def, if_pos h0]
      rfl
    · rw [if_neg h0, ih (n / 10) _ (by omega)]
      conv_rhs => rw [natChars.eq_def]
      rw [if_neg h0]
      simp

/-- The decimal representation of a natural number is exactly the reference
digit list. -/
theorem repr_data_eq_natChars (n : Nat) : (Nat.repr n).data = natChars n := by
  simp only [Nat.repr, Nat.toDigits]
  rw [toDigitsCore_eq_natChars (n + 1) n [] (Nat.lt_succ_self n)]
  simp [List.asString]

/-- The reference digit list never contains a dash. -/
theorem natChars_ne_dash (n : Nat) : ∀ c ∈ natChars n, c ≠ '-' := by
  induction n using Nat.strong_induction_on with
  | _ n ih =>
    rw [natChars.eq_def]
    by_cases h0 : n / 10 = 0
    · rw [if_pos h0]
      intro c hc
      simp only [List.mem_singleton] at hc
      subst hc
      exact digitChar_ne_dash _ (Nat.mod_lt n (by omega))
    · rw [if_neg h0]
      intro c hc
      rcases List.mem_append.mp hc with h | h
      · exact ih (n / 10) (by omega) c h
      · simp only [List.mem_singleton] at h
        subst h
        exact digitChar_ne_dash _ (Nat.mod_lt n (by omega))

/-- Digit-character value roundtrip below the base. -/
theorem digitChar_toNat (m : Nat) (h : m < 10) : (Nat.digitChar m).toNat - 48 = m := by
  interval_cases m <;> decide

/-- Folding one more digit onto a decimal value. -/
theorem natVal_append (l : List Char) (c : Char) :
    natVal (l ++ [c]) = 10 * natVal l + (c.toNat - 48) := by
  simp [natVal, List.foldl_append]

/-- The decimal value function inverts the reference digit list. -/
theorem natVal_natChars (n : Nat) : natVal (natChars n) = n := by
  induction n using Nat.strong_induction_on with
  | _ n ih =>
    rw [natChars.eq_def]
    by_cases h0 : n / 10 = 0
    · rw [if_pos h0]
      have hn : n < 10 := by omega
      simp only [natVal, List.foldl_cons, List.foldl_nil]
      rw [Nat.mul_zero, Nat.zero_add, digitChar_toNat (n % 10) (by omega)]
      omega
    · rw [if_neg h0, natVal_append, ih (n / 10) (by omega),
        digitChar_toNat (n % 10) (by omega)]
      omega

/-- The reference digit list is injective. -/
theorem natChars_inj {i j : Nat} (h : natChars i = natChars j) : i = j := by
  have h2 := congrArg natVal h
  rwa [natVal_natChars, natVal_natChars] at h2

/-- `takeWhile` of non-dash characters stops exactly at the first dash. -/
theorem takeWhile_until_dash :
    ∀ (xs ys : List Char), (∀ c ∈ xs, c ≠ '-') →
      List.takeWhile (fun c => !(c == '-')) (xs ++ '-' :: ys) = xs := by
  intro xs
  induction xs with
  | nil =>
    intro ys _
    simp
  | cons x xt ih =>
    intro ys h
    have hx : x ≠ '-' := h x (by simp)
    simp only [List.cons_append, List.takeWhile_cons]
    rw [if_pos (by simpa using hx), ih ys (fun c hc => h c (by simp [hc]))]

/-- The segment after the last dash of `a ++ '-' :: d` is `d`, provided `d`
itself is dash-free. -/
theorem lastDashSeg_append (a d : List Char) (hd : ∀ c ∈ d, c ≠ '-') :
    lastDashSeg (a ++ '-' :: d) = d := by
  unfold lastDashSeg
  rw [List.reverse_append, List.reverse_cons, List.append_assoc,
    List.singleton_append,
    takeWhile_until_dash _ _ (fun c hc => hd c (List.mem_reverse.mp hc)),
    List.reverse_reverse]

/-- The ordinal segment of a synthesized identifier string is the digit list
of its index. -/
theorem idOrdinal_synth (a : String) (i : Nat) :
    idOrdinal (.vstr (a ++ "-" ++ toString i)) = natChars i := by
  show lastDashSeg ((a ++ "-" ++ toString i).data) = natChars i
  have hts : (toString i).data = natChars i := repr_data_eq_natChars i
  rw [String.data_append, String.data_append, hts]
  rw [show ("-" : String).data = ['-'] from rfl, List.append_assoc,
    List.singleton_append]
  exact lastDashSeg_append _ _ (natChars_ne_dash i)

/-- A record without explicit identifiers gets an id whose ordinal segment
is the digit list of its position. -/
theorem parseEvent_id_ordinal (dp : Value → Option Int) (now : Int) (r : Value)
    (i : Nat) (ev : CanonicalEvent) (hno : noExplicitId r)
    (h : parseEvent dp now r i = some ev) :
    idOrdinal ev.id = natChars i := by
  obtain ⟨-, hid, -⟩ := parseEvent_fields dp now r i ev h
  obtain ⟨h1, h2⟩ := hno
  have hnull : jsOrNull (getNestedValue r "_id") = none := by
    rcases hx : getNestedValue r "_id" with _ | v
    · simp [jsOrNull]
    · rw [hx] at h1
      simp only [jsTruthyOpt] at h1
      simp [jsOrNull, h1]
  rw [hnull] at hid
  have hgen : ev.id = generateEventId (unwrapPayload r) (some ev.timestamp) now i := by
    simpa using hid
  rw [hgen]
  simp only [generateEventId, h2, Bool.false_eq_true, if_false, Option.getD_some]
  exact idOrdinal_synth _ i

/-- Every event of the indexed pipeline run from position `i`, on a batch
with no explicit identifiers, carries the ordinal of some position `≥ i`. -/
theorem mem_parseEventsFrom_ordinal (dp : Value → Option Int) (now : Int) :
    ∀ (l : List Value) (i : Nat) (ev : CanonicalEvent),
      (∀ r ∈ l, noExplicitId r) → ev ∈ parseEventsFrom dp now i l →
      ∃ j, i ≤ j ∧ idOrdinal ev.id = natChars j
  | [], i, ev, _, h => by simp [parseEventsFrom] at h
  | r :: rest, i, ev, hno, h => by
    have hr : noExplicitId r := hno r (by simp)
    have hrest : ∀ x ∈ rest, noExplicitId x := fun x hx => hno x (by simp [hx])
    rcases hp : parseEvent dp now r i with _ | ev0
    · rw [parseEventsFrom, hp] at h
      obtain ⟨j, hij, hj⟩ := mem_parseEventsFrom_ordinal dp now rest (i + 1) ev hrest h
      exact ⟨j, by omega, hj⟩
    · rw [parseEventsFrom, hp] at h
      rcases List.mem_cons.mp h with heq | htail
      · subst heq
        exact ⟨i, Nat.le_refl i, parseEvent_id_ordinal dp now r i ev hr hp⟩
      · obtain ⟨j, hij, hj⟩ :=
          mem_parseEventsFrom_ordinal dp now rest (i + 1) ev hrest htail
        exact ⟨j, by omega, hj⟩

/-- On a batch with no explicit identifiers, the ids produced by the indexed
pipeline are pairwise distinct. -/
theorem parseEventsFrom_ids_nodup (dp : Value → Option Int) (now : Int) :
    ∀ (l : List Value) (i : Nat), (∀ r ∈ l, noExplicitId r) →
      ((parseEventsFrom dp now i l).map (fun e => e.id)).Nodup
  | [], i, _ => by simp [parseEventsFrom]
  | r :: rest, i, hno => by
    have hr : noExplicitId r := hno r (by simp)
    have hrest : ∀ x ∈ rest, noExplicitId x := fun x hx => hno x (by simp [hx])
    have ihrest := parseEventsFrom_ids_nodup dp now rest (i + 1) hrest
    rcases hp : parseEvent dp now r i with _ | ev
    · rw [parseEventsFrom, hp]
      exact ihrest
    · rw [parseEventsFrom, hp]
      rw [List.map_cons, List.nodup_cons]
      refine ⟨?_, ihrest⟩
      intro hmem
      rw [List.mem_map] at hmem
      obtain ⟨ev2, hev2, hideq⟩ := hmem
      obtain ⟨j, hij, hj⟩ :=
        mem_parseEventsFrom_ordinal dp now rest (i + 1) ev2 hrest hev2
      have hi : idOrdinal ev.id = natChars i := parseEvent_id_ordinal dp now r i ev hr hp
      rw [hideq] at hj
      have hji : j = i := natChars_inj (hj.symm.trans hi)
      omega

/-- C8 counterexample: a batch of two records sharing the envelope id `a`
yields two CanonicalEvents with identical ids — uniqueness fails when
explicit identifiers collide. -/
theorem claim8_counterexample :
    ((parseEvents dateFromMillis 0 batchDupIds).map (fun e => e.id))
      = [.vstr "a", .vstr "a"] ∧
    ¬ ((parseEvents dateFromMillis 0 batchDupIds).map (fun e => e.id)).Nodup := by
  decide

/-- C8 (amended): within a single `parseEvents` call, ids are pairwise
distinct whenever no record supplies an explicit identifier (envelope `_id`
or payload `event.id`) — the synthesized `timestamp-host-ordinal` scheme is
injective in the ordinal; with explicit identifiers, duplicates supplied in
the input are passed through. -/
theorem claim8_synth_ids_unique (dp : Value → Option Int) (now : Int)
    (input : List Value) (h : ∀ r ∈ input, noExplicitId r) :
    ((parseEvents dp now input).map (fun e => e.id)).Nodup :=
  parseEventsFrom_ids_nodup dp now input 0 h

/-- Witness for C8 on a concrete identifier-free batch. -/
theorem claim8_witness :
    ((parseEvents dateFromMillis 0 batchNoIds).map (fun e => e.id)).Nodup :=
  claim8_synth_ids_unique dateFromMillis 0 batchNoIds
    (by intro r hr; fin_cases hr <;> exact ⟨by decide, by decide⟩)

end ECS
